import Mathlib

/-!
Verification of the POC_Offerings claim protocol.

The repository implements several variants of a distributed offer-claiming
admission controller over Redis.  We shallowly embed the counter store, the
Lua claim scripts, the key schemes and the orchestrator loops, and prove or
refute the spec's claims about them.

Modelling conventions:
* A counter cell's value is an `Int` (Redis INCR/DECR on stringified
  integers); an absent key reads as 0, exactly as the scripts'
  `tonumber(redis.call('GET', k) or 0)` does, so absence is folded into the
  value function with default 0.
* Expiries are `Option Int` (absolute unix timestamps set by EXPIREAT).
* Each Lua script executes atomically on the server, so its embedding is a
  pure state transformer `Store → Outcome × Store`; a concurrent history of
  script executions is exactly a sequential composition of these
  transformers.
* Client-side call sequences (pipelines, loops) are sequential per
  connection and are embedded as folds; where a claim needs to distinguish
  mutations issued inside a Lua script from bare client commands, the
  embedding also emits a trace of `Op`s.
-/

namespace POC

/-- Result strings returned by the claim scripts. -/
inductive Outcome
  | SUCCESS
  | FAIL_CAP_MET
  | FAIL_GLOBAL_CAP_MET
  | FAIL_USER_CAP_MET
deriving DecidableEq, Repr

/-- The counter store: per-key integer counters (absent = 0) and optional
absolute expiry timestamps. -/
structure Store where
  count : String → Int
  expiry : String → Option Int

/-- The empty store: every key absent (counts 0, no expiries). -/
def Store.empty : Store := ⟨fun _ => 0, fun _ => none⟩

/-- Redis INCR: add one to the cell. -/
def Store.incr (s : Store) (k : String) : Store :=
  { s with count := fun k' => if k' = k then s.count k' + 1 else s.count k' }

/-- Redis DECR: subtract one from the cell. -/
def Store.decr (s : Store) (k : String) : Store :=
  { s with count := fun k' => if k' = k then s.count k' - 1 else s.count k' }

/-- Redis EXPIREAT: set the cell's absolute expiry timestamp. -/
def Store.expireAt (s : Store) (k : String) (t : Int) : Store :=
  { s with expiry := fun k' => if k' = k then some t else s.expiry k' }

@[simp] theorem Store.count_incr (s : Store) (k k' : String) :
    (s.incr k).count k' = if k' = k then s.count k' + 1 else s.count k' := rfl

@[simp] theorem Store.count_decr (s : Store) (k k' : String) :
    (s.decr k).count k' = if k' = k then s.count k' - 1 else s.count k' := rfl

@[simp] theorem Store.count_expireAt (s : Store) (k : String) (t : Int) (k' : String) :
    (s.expireAt k t).count k' = s.count k' := rfl

@[simp] theorem Store.expiry_incr (s : Store) (k k' : String) :
    (s.incr k).expiry k' = s.expiry k' := rfl

@[simp] theorem Store.expiry_decr (s : Store) (k k' : String) :
    (s.decr k).expiry k' = s.expiry k' := rfl

@[simp] theorem Store.expiry_expireAt (s : Store) (k : String) (t : Int) (k' : String) :
    (s.expireAt k t).expiry k' = if k' = k then some t else s.expiry k' := rfl

/-! ## The atomic Lua claim scripts -/

/-- `ATOMIC_CLAIM_SINGLE_KEY_LUA` of `v4.py` (identical in `batch_locust.py`,
`locust_iterative_atomic.py`'s `ATOMIC_CHECK_AND_INCR_LUA` and
`locust_v3.py`'s `GLOBAL_ONLY_LUA_SCRIPT`): check-then-increment on one
cell.  If the stored count is below the cap, INCR, and EXPIREAT exactly when
the INCR returned 1; otherwise no mutation and `FAIL_CAP_MET`. -/
def atomicClaimSingleKey (key : String) (cap ex : Int) (s : Store) : Outcome × Store :=
  if s.count key < cap then
    let n := s.count key + 1
    let s1 := s.incr key
    let s2 := if n = 1 then s1.expireAt key ex else s1
    (Outcome.SUCCESS, s2)
  else (Outcome.FAIL_CAP_MET, s)

/-- `USER_ONLY_LUA_SCRIPT` of `offerings_lua/locust.py` and `locust_v3.py`:
same check-then-increment as `atomicClaimSingleKey` but failing with
`FAIL_USER_CAP_MET`. -/
def userOnlyScript (key : String) (cap ex : Int) (s : Store) : Outcome × Store :=
  if s.count key < cap then
    let n := s.count key + 1
    let s1 := s.incr key
    let s2 := if n = 1 then s1.expireAt key ex else s1
    (Outcome.SUCCESS, s2)
  else (Outcome.FAIL_USER_CAP_MET, s)

/-- `ATOMIC_CLAIM_BOTH_LUA` of `v4.py` (identical minified in
`batch_locust.py`): dual-cell check-then-increment.  Reads both counts; if
the global count has met its cap fail globally, else if the user count has
met its cap fail on the user, else INCR both and EXPIREAT each cell whose
INCR returned 1. -/
def atomicClaimBoth (gk uk : String) (gc uc ex : Int) (s : Store) : Outcome × Store :=
  if s.count gk < gc then
    if s.count uk < uc then
      let ng := s.count gk + 1
      let s1 := s.incr gk
      let nu := s1.count uk + 1
      let s2 := s1.incr uk
      let s3 := if ng = 1 then s2.expireAt gk ex else s2
      let s4 := if nu = 1 then s3.expireAt uk ex else s3
      (Outcome.SUCCESS, s4)
    else (Outcome.FAIL_USER_CAP_MET, s)
  else (Outcome.FAIL_GLOBAL_CAP_MET, s)

/-- `ATOMIC_INCR_THEN_CHECK_SINGLE_LUA` of `one_node_locust.py`,
`multi_node_locust.py` and `opt_v1.py`: INCR first; if the new value is
within the cap, EXPIREAT when it is 1 and succeed; otherwise DECR back and
fail. -/
def atomicIncrThenCheckSingle (key : String) (cap ex : Int) (s : Store) : Outcome × Store :=
  let n := s.count key + 1
  let s1 := s.incr key
  if n ≤ cap then
    let s2 := if n = 1 then s1.expireAt key ex else s1
    (Outcome.SUCCESS, s2)
  else (Outcome.FAIL_CAP_MET, s1.decr key)

/-- `ATOMIC_CLAIM_SINGLE_NO_DECR_LUA` of `opt_v2.py`: INCR first; on cap
violation the over-limit increment is left in place (no DECR). -/
def atomicClaimSingleNoDecr (key : String) (cap ex : Int) (s : Store) : Outcome × Store :=
  let n := s.count key + 1
  let s1 := s.incr key
  if n ≤ cap then
    let s2 := if n = 1 then s1.expireAt key ex else s1
    (Outcome.SUCCESS, s2)
  else (Outcome.FAIL_CAP_MET, s1)

/-- `ATOMIC_INCR_THEN_CHECK_BOTH_LUA` of `one_node_locust.py` and
`multi_node_locust.py`: INCR the user cell first; if over the user cap,
DECR it back and fail on the user.  Else INCR the global cell; if over the
global cap, DECR both cells back and fail globally.  Else EXPIREAT each
newly created cell (user first, then global) and succeed. -/
def atomicIncrThenCheckBoth (gk uk : String) (gc uc ex : Int) (s : Store) : Outcome × Store :=
  let nu := s.count uk + 1
  let s1 := s.incr uk
  if nu ≤ uc then
    let ng := s1.count gk + 1
    let s2 := s1.incr gk
    if ng ≤ gc then
      let s3 := if nu = 1 then s2.expireAt uk ex else s2
      let s4 := if ng = 1 then s3.expireAt gk ex else s3
      (Outcome.SUCCESS, s4)
    else (Outcome.FAIL_GLOBAL_CAP_MET, (s2.decr gk).decr uk)
  else (Outcome.FAIL_USER_CAP_MET, s1.decr uk)

/-- `ATOMIC_CLAIM_BOTH_REDUCED_DECR_LUA` of `opt_v2.py`: INCR the GLOBAL
cell first; if over the global cap, fail globally leaving the over-limit
global increment in place (no DECR).  Else INCR the user cell; if over the
user cap, DECR only the global cell back and fail on the user, leaving the
user cell's over-limit increment in place.  Else EXPIREAT each newly
created cell (global first, then user) and succeed. -/
def atomicClaimBothReducedDecr (gk uk : String) (gc uc ex : Int) (s : Store) : Outcome × Store :=
  let ng := s.count gk + 1
  let s1 := s.incr gk
  if ng ≤ gc then
    let nu := s1.count uk + 1
    let s2 := s1.incr uk
    if nu ≤ uc then
      let s3 := if ng = 1 then s2.expireAt gk ex else s2
      let s4 := if nu = 1 then s3.expireAt uk ex else s3
      (Outcome.SUCCESS, s4)
    else (Outcome.FAIL_USER_CAP_MET, s2.decr gk)
  else (Outcome.FAIL_GLOBAL_CAP_MET, s1)

/-! ## Offer catalog -/

/-- The `type` field of an offer config. -/
inductive OfferType
  | GLOBAL_ONLY
  | USER_ONLY
  | BOTH
deriving DecidableEq, Repr

/-- One entry of `OFFER_CONFIGS` (a loaded JSON object).  `global_cap`
models the `global_cap` field (read plainly by every variant on the paths
where it is used); `user_cap` models the optional `user_cap` field, read by
the loops as `config.get("user_cap", 1)`. -/
structure OfferConfig where
  type : OfferType
  global_cap : Int
  user_cap : Option Int
deriving DecidableEq, Repr

/-- `config.get("user_cap", 1)`. -/
def OfferConfig.userCapD (c : OfferConfig) : Int := c.user_cap.getD 1

/-- `OFFER_CONFIGS.get(offer_id)`. -/
def Catalog := String → Option OfferConfig

/-! ## Key schemes and the cluster hash tag -/

/-- The character `{` (written escaped so that it is unambiguously text). -/
def braceOpen : Char := '\x7b'

/-- The character `}`. -/
def braceClose : Char := '\x7d'

/-- Given the characters after the first `{` of a key: the Redis cluster
hash tag is the content up to the first `}`, provided that `}` exists and
the content is nonempty; otherwise the whole key is hashed (`none`). -/
def extractTag (cs : List Char) : Option String :=
  let content := cs.takeWhile (fun c => c ≠ braceClose)
  if content.length < cs.length ∧ content ≠ [] then some (String.mk content) else none

/-- Scan for the first `{` of a key. -/
def findTag : List Char → Option String
  | [] => none
  | c :: cs => if c = braceOpen then extractTag cs else findTag cs

/-- The Redis cluster hash tag of a key: the substring between the first
`{` and the next `}` when nonempty, else `none` (the whole key is hashed).
Two keys land on the same shard by construction exactly when they carry the
same `some` tag. -/
def hashTag (k : String) : Option String := findTag k.toList

/-- `v4.py` / `batch_locust.py` / `opt_v2.py` global cell key for a BOTH
offer: `offer:{offerId}:count:{date}` (literal braces around the offer id
form the hash tag). -/
def v4GlobalKey (oid date : String) : String :=
  "offer:\x7b" ++ oid ++ "\x7d:count:" ++ date

/-- `v4.py` / `batch_locust.py` / `opt_v2.py` user cell key for a BOTH
offer: `user_offer:{offerId}:count:{userId}:{date}`. -/
def v4UserKey (oid uid date : String) : String :=
  "user_offer:\x7b" ++ oid ++ "\x7d:count:" ++ uid ++ ":" ++ date

/-- The untagged global cell key `offer:{offerId}:{date}` (no braces) used
by `locust_iterative_atomic.py`, `locust_sharded.py`, `locust_v3.py` and
`offerings_lua/locust.py`. -/
def plainGlobalKey (oid date : String) : String :=
  "offer:" ++ oid ++ ":" ++ date

/-- The user cell key `user_offer:{userId}:{offerId}:{date}` with the USER
id in braces, used by `locust_iterative_atomic.py`, `locust_sharded.py`,
`locust_v3.py` and `offerings_lua/locust.py`. -/
def userTaggedUserKey (uid oid date : String) : String :=
  "user_offer:\x7b" ++ uid ++ "\x7d:" ++ oid ++ ":" ++ date

/-! ## Client-visible store operations

Each orchestrator variant is also instrumented to emit the sequence of
store calls it issues, distinguishing an atomic Lua script execution
(`scriptCall`, with the keys passed to it) from bare single commands. -/

/-- One client-issued store operation. -/
inductive Op
  | scriptCall (keys : List String)
  | bareGet (key : String)
  | bareIncr (key : String)
  | bareDecr (key : String)
  | bareExpireAt (key : String) (t : Int)
deriving DecidableEq, Repr

/-- An op that is an atomic script execution. -/
def Op.isScript : Op → Bool
  | Op.scriptCall _ => true
  | _ => false

/-- An op that mutates a counter cell outside any script. -/
def Op.isBareMutation : Op → Bool
  | Op.bareIncr _ => true
  | Op.bareDecr _ => true
  | _ => false

/-! ## Orchestrator: `v4.py` `_claim_offers_optimal_cluster`

The loop body: offers whose id is missing from the catalog are skipped;
the `GLOBAL_ONLY` and `USER_ONLY` branches are commented out in the source,
so only `BOTH` offers reach the store, via one `ATOMIC_CLAIM_BOTH_LUA`
call on the two co-tagged keys. -/

/-- One iteration body of `_claim_offers_optimal_cluster` (v4.py): whether
the offer was granted, the new store, and the ops issued. -/
def v4ClaimOne (catalog : Catalog) (uid date : String) (ex : Int) (oid : String)
    (s : Store) : Bool × Store × List Op :=
  match catalog oid with
  | none => (false, s, [])
  | some cfg =>
    if cfg.type = OfferType.BOTH then
      let gk := v4GlobalKey oid date
      let uk := v4UserKey oid uid date
      let r := atomicClaimBoth gk uk cfg.global_cap cfg.userCapD ex s
      (r.1 = Outcome.SUCCESS, r.2, [Op.scriptCall [gk, uk]])
    else (false, s, [])

/-- The loop of `_claim_offers_optimal_cluster`, with the source's
`if len(offers_to_return) >= grant_limit: break` check first. -/
def v4ClaimLoopAux (catalog : Catalog) (uid date : String) (ex : Int) (grantLimit : Nat) :
    List String → List String → Store → List Op → List String × Store × List Op
  | [], acc, s, tr => (acc, s, tr)
  | oid :: rest, acc, s, tr =>
    if grantLimit ≤ acc.length then (acc, s, tr)
    else
      let r := v4ClaimOne catalog uid date ex oid s
      let acc' := if r.1 then acc ++ [oid] else acc
      v4ClaimLoopAux catalog uid date ex grantLimit rest acc' r.2.1 (tr ++ r.2.2)

/-- `_claim_offers_optimal_cluster(user_id, applicable_offers_ids,
grant_limit)` of `v4.py`: iterate the candidate list in order (no
dedup), claim each BOTH offer through the dual-cell script, append granted
ids, stop at the grant limit. -/
def claim_offers_optimal_cluster (catalog : Catalog) (uid date : String) (ex : Int)
    (offers : List String) (grantLimit : Nat) (s : Store) : List String × Store × List Op :=
  v4ClaimLoopAux catalog uid date ex grantLimit offers [] s []

/-! ## Orchestrator: `batch_locust.py` -/

/-- One iteration body of `_claim_offers_in_batch` (batch_locust.py); same
dispatch as v4 — only BOTH offers reach the store. -/
def batchClaimOne (catalog : Catalog) (uid date : String) (ex : Int) (oid : String)
    (s : Store) : Bool × Store × List Op :=
  match catalog oid with
  | none => (false, s, [])
  | some cfg =>
    if cfg.type = OfferType.BOTH then
      let gk := v4GlobalKey oid date
      let uk := v4UserKey oid uid date
      let r := atomicClaimBoth gk uk cfg.global_cap cfg.userCapD ex s
      (r.1 = Outcome.SUCCESS, r.2, [Op.scriptCall [gk, uk]])
    else (false, s, [])

/-- The loop of `_claim_offers_in_batch` (no grant-limit break inside a
batch). -/
def batchClaimAux (catalog : Catalog) (uid date : String) (ex : Int) :
    List String → List String → Store → List Op → List String × Store × List Op
  | [], acc, s, tr => (acc, s, tr)
  | oid :: rest, acc, s, tr =>
    let r := batchClaimOne catalog uid date ex oid s
    let acc' := if r.1 then acc ++ [oid] else acc
    batchClaimAux catalog uid date ex rest acc' r.2.1 (tr ++ r.2.2)

/-- `_claim_offers_in_batch(user_id, batch_to_try)` of `batch_locust.py`. -/
def claim_offers_in_batch (catalog : Catalog) (uid date : String) (ex : Int)
    (batch : List String) (s : Store) : List String × Store × List Op :=
  batchClaimAux catalog uid date ex batch [] s []

/-- Python `set.add` on a set modelled as a duplicate-free list. -/
def insertUnique (l : List String) (x : String) : List String :=
  if x ∈ l then l else l ++ [x]

/-- Python `set.update` on sets modelled as duplicate-free lists. -/
def unionUnique (l : List String) (new : List String) : List String :=
  new.foldl insertUnique l

/-- The bounded-retry loop of `_secure_n_offers` (batch_locust.py).  State:
remaining fuel (`max_attempts`), the claimed set, the attempted set (kept
as the list of ids in the order they were first attempted — Python keeps a
set; the list also serves as the trace of ids passed to the claim layer),
and the store.  Each round takes the next `needed_count` not-yet-attempted
candidates, marks them attempted, and claims them in one batch. -/
def secureLoop (catalog : Catalog) (uid date : String) (ex : Int)
    (poolD : List String) (nReq : Nat) :
    Nat → List String → List String → Store → List String × List String × Store
  | 0, claimed, attempted, s => (claimed, attempted, s)
  | fuel + 1, claimed, attempted, s =>
    if nReq ≤ claimed.length then (claimed, attempted, s)
    else
      let available := poolD.filter (fun oid => decide (oid ∉ attempted))
      if available = [] then (claimed, attempted, s)
      else
        let needed := nReq - claimed.length
        let batch := available.take needed
        let attempted' := attempted ++ batch
        let r := claim_offers_in_batch catalog uid date ex batch s
        secureLoop catalog uid date ex poolD nReq fuel (unionUnique claimed r.1) attempted' r.2.1

/-- `_secure_n_offers(user_id, offers_to_evaluate, n_required)` of
`batch_locust.py`: dedup the candidate pool into a set, then run the
bounded-retry loop with `max_attempts = n_required + 5`.  Returns the
claimed set, the attempted set (in first-attempt order) and the store. -/
def secure_n_offers (catalog : Catalog) (uid date : String) (ex : Int)
    (pool : List String) (nReq : Nat) (s : Store) : List String × List String × Store :=
  secureLoop catalog uid date ex pool.dedup nReq (nReq + 5) [] [] s

/-! ## Orchestrator: `offerings_lua/locust.py` `claim_offers_flexible`

Pipeline 1 runs the USER_ONLY check-then-increment script once per
BOTH-type candidate on the user-tagged user key (the GLOBAL_ONLY and
USER_ONLY dispatch branches are commented out in the source); pipeline 2
then issues a BARE `INCR` on the untagged global key for every offer whose
user script succeeded ("best-effort global increments") — with no cap
check and no script.  Offers missing from the catalog are skipped.  The
source indexes `config['user_cap']` directly; configs reaching this path
carry the field, modelled via `userCapD`. -/

/-- Pipeline 1 of `claim_offers_flexible`: returns the list of
`(offer_id, succeeded)` pairs in pipeline order, the store, and the ops. -/
def flexPipeline1 (catalog : Catalog) (uid date : String) (ex : Int) :
    List String → Store → List (String × Bool) × Store × List Op
  | [], s => ([], s, [])
  | oid :: rest, s =>
    match catalog oid with
    | none => flexPipeline1 catalog uid date ex rest s
    | some cfg =>
      if cfg.type = OfferType.BOTH then
        let key := userTaggedUserKey uid oid date
        let r := userOnlyScript key cfg.userCapD ex s
        let rec' := flexPipeline1 catalog uid date ex rest r.2
        ((oid, r.1 = Outcome.SUCCESS) :: rec'.1, rec'.2.1, Op.scriptCall [key] :: rec'.2.2)
      else flexPipeline1 catalog uid date ex rest s

/-- Pipeline 2 of `claim_offers_flexible`: a bare `INCR` per successful
offer on its untagged global key. -/
def flexPipeline2 (date : String) : List String → Store → Store × List Op
  | [], s => (s, [])
  | oid :: rest, s =>
    let key := plainGlobalKey oid date
    let r := flexPipeline2 date rest (s.incr key)
    (r.1, Op.bareIncr key :: r.2)

/-- `claim_offers_flexible(user_id, offers_to_try)` of
`offerings_lua/locust.py`: pipeline 1, then best-effort bare global
increments for the successes, returning the granted ids. -/
def claim_offers_flexible (catalog : Catalog) (uid date : String) (ex : Int)
    (offers : List String) (s : Store) : List String × Store × List Op :=
  let p1 := flexPipeline1 catalog uid date ex offers s
  let successes := (p1.1.filter (fun p => p.2)).map (fun p => p.1)
  let p2 := flexPipeline2 date successes p1.2.1
  (successes, p2.1, p1.2.2 ++ p2.2)

/-! ## Orchestrator: `locust_sharded.py` `_claim_offers_one_by_one`

Fully client-side (non-atomic) GET / INCR / EXPIREAT sequences; note the
`EXPIREAT` is issued after EVERY successful increment, not only on cell
creation, and the expiry timestamp is recomputed per run. -/

/-- One iteration body of `_claim_offers_one_by_one` (locust_sharded.py). -/
def oneByOneClaimOne (catalog : Catalog) (uid date : String) (ex : Int) (oid : String)
    (s : Store) : Bool × Store × List Op :=
  match catalog oid with
  | none => (false, s, [])
  | some cfg =>
    match cfg.type with
    | OfferType.GLOBAL_ONLY =>
      let key := plainGlobalKey oid date
      if s.count key < cfg.global_cap then
        (true, (s.incr key).expireAt key ex,
          [Op.bareGet key, Op.bareIncr key, Op.bareExpireAt key ex])
      else (false, s, [Op.bareGet key])
    | OfferType.USER_ONLY =>
      let key := userTaggedUserKey uid oid date
      if s.count key < cfg.userCapD then
        (true, (s.incr key).expireAt key ex,
          [Op.bareGet key, Op.bareIncr key, Op.bareExpireAt key ex])
      else (false, s, [Op.bareGet key])
    | OfferType.BOTH =>
      let ukey := userTaggedUserKey uid oid date
      if s.count ukey < cfg.userCapD then
        let okey := plainGlobalKey oid date
        if s.count okey < cfg.global_cap then
          let s1 := (s.incr ukey).expireAt ukey ex
          let s2 := (s1.incr okey).expireAt okey ex
          (true, s2,
            [Op.bareGet ukey, Op.bareGet okey, Op.bareIncr ukey,
             Op.bareExpireAt ukey ex, Op.bareIncr okey, Op.bareExpireAt okey ex])
        else (false, s, [Op.bareGet ukey, Op.bareGet okey])
      else (false, s, [Op.bareGet ukey])

/-- The loop of `_claim_offers_one_by_one`, with the grant-limit break. -/
def oneByOneLoopAux (catalog : Catalog) (uid date : String) (ex : Int) (grantLimit : Nat) :
    List String → List String → Store → List Op → List String × Store × List Op
  | [], acc, s, tr => (acc, s, tr)
  | oid :: rest, acc, s, tr =>
    if grantLimit ≤ acc.length then (acc, s, tr)
    else
      let r := oneByOneClaimOne catalog uid date ex oid s
      let acc' := if r.1 then acc ++ [oid] else acc
      oneByOneLoopAux catalog uid date ex grantLimit rest acc' r.2.1 (tr ++ r.2.2)

/-- `_claim_offers_one_by_one(user_id, applicable_offers_ids, grant_limit)`
of `locust_sharded.py` (the same function appears in
`locust_cluster.py`). -/
def claim_offers_one_by_one (catalog : Catalog) (uid date : String) (ex : Int)
    (offers : List String) (grantLimit : Nat) (s : Store) : List String × Store × List Op :=
  oneByOneLoopAux catalog uid date ex grantLimit offers [] s []

/-! ## `opt_v1.py` BOTH-branch of `_claim_offers_in_batch_iterative`

The compensating strategy composed client-side: run the incr-then-check
single-cell script on the user key first; on its success run it on the
global key; if the global leg fails, issue a BARE `client.decr(user_key)`
as compensation. -/

/-- The BOTH branch of `_claim_offers_in_batch_iterative` (opt_v1.py) for
one offer, over its two keys. -/
def optV1ClaimBoth (uk gk : String) (uc gc ex : Int) (s : Store) : Bool × Store × List Op :=
  let r1 := atomicIncrThenCheckSingle uk uc ex s
  if r1.1 = Outcome.SUCCESS then
    let r2 := atomicIncrThenCheckSingle gk gc ex r1.2
    if r2.1 = Outcome.SUCCESS then
      (true, r2.2, [Op.scriptCall [uk], Op.scriptCall [gk]])
    else
      (false, r2.2.decr uk, [Op.scriptCall [uk], Op.scriptCall [gk], Op.bareDecr uk])
  else (false, r1.2, [Op.scriptCall [uk]])

/-! ## Sequential compositions of primitive executions

Every Lua script runs as one indivisible unit on the shard holding its
keys, so any concurrent history of script executions against a cell is
observationally a sequence of complete executions.  These runners fold a
list of executions and count the successes. -/

/-- Fold a list of single-cell check-then-increment claims (one `expireAt`
argument per call) over the store, counting successes. -/
def runSingleClaims (key : String) (cap : Int) : List Int → Store → Nat × Store
  | [], s => (0, s)
  | ex :: rest, s =>
    let r := atomicClaimSingleKey key cap ex s
    let rec' := runSingleClaims key cap rest r.2
    (rec'.1 + (if r.1 = Outcome.SUCCESS then 1 else 0), rec'.2)

/-- Fold a list of dual-cell check-then-increment claims against one fixed
global cell; each execution carries its own user key, user cap and expiry
(different users share the global cell). -/
def runBothClaims (gk : String) (gc : Int) : List (String × Int × Int) → Store → Nat × Store
  | [], s => (0, s)
  | (uk, uc, ex) :: rest, s =>
    let r := atomicClaimBoth gk uk gc uc ex s
    let rec' := runBothClaims gk gc rest r.2
    (rec'.1 + (if r.1 = Outcome.SUCCESS then 1 else 0), rec'.2)

/-! ## Concrete instances used to settle claims on explicit inputs -/

/-- A catalog holding one BOTH offer `X` with `global_cap = 1`,
`user_cap = 1` (the shape of `resources/both_only.json` entries). -/
def catalogX11 : Catalog := fun oid =>
  if oid = "X" then some ⟨OfferType.BOTH, 1, some 1⟩ else none

/-- A catalog holding one BOTH offer `X` with `global_cap = 2`,
`user_cap = 2`. -/
def catalogX22 : Catalog := fun oid =>
  if oid = "X" then some ⟨OfferType.BOTH, 2, some 2⟩ else none

/-- A catalog holding one GLOBAL_ONLY offer `G` with `global_cap = 2`. -/
def catalogG2 : Catalog := fun oid =>
  if oid = "G" then some ⟨OfferType.GLOBAL_ONLY, 2, none⟩ else none

/-- A catalog holding one USER_ONLY offer `Y` with `user_cap = 1` and one
BOTH offer `B` with caps 5/5. -/
def catalogYB : Catalog := fun oid =>
  if oid = "Y" then some ⟨OfferType.USER_ONLY, 0, some 1⟩
  else if oid = "B" then some ⟨OfferType.BOTH, 5, some 5⟩
  else none

/-! ## Characterization lemmas for the primitives -/

theorem singleKey_outcome (key : String) (cap ex : Int) (s : Store) :
    (atomicClaimSingleKey key cap ex s).1 =
      if s.count key < cap then Outcome.SUCCESS else Outcome.FAIL_CAP_MET := by
  unfold atomicClaimSingleKey
  split_ifs <;> rfl

theorem singleKey_count (key : String) (cap ex : Int) (s : Store) (k : String) :
    (atomicClaimSingleKey key cap ex s).2.count k =
      if k = key ∧ s.count key < cap then s.count k + 1 else s.count k := by
  unfold atomicClaimSingleKey
  by_cases hlt : s.count key < cap <;> by_cases hk : k = key <;>
    simp [hlt, hk] <;> split_ifs <;> simp [hk]

theorem singleKey_expiry (key : String) (cap ex : Int) (s : Store) (k : String) :
    (atomicClaimSingleKey key cap ex s).2.expiry k =
      if k = key ∧ s.count key < cap ∧ s.count key = 0 then some ex else s.expiry k := by
  unfold atomicClaimSingleKey
  by_cases hlt : s.count key < cap <;> by_cases hk : k = key <;>
    by_cases h0 : s.count key = 0 <;>
    simp [hlt, hk, h0] <;> split_ifs <;> simp_all <;> omega

theorem userOnlyScript_store (key : String) (cap ex : Int) (s : Store) :
    (userOnlyScript key cap ex s).2 = (atomicClaimSingleKey key cap ex s).2 := by
  unfold userOnlyScript atomicClaimSingleKey
  split_ifs <;> rfl

theorem userOnlyScript_outcome (key : String) (cap ex : Int) (s : Store) :
    (userOnlyScript key cap ex s).1 =
      if s.count key < cap then Outcome.SUCCESS else Outcome.FAIL_USER_CAP_MET := by
  unfold userOnlyScript
  split_ifs <;> rfl

theorem incrThenCheckSingle_outcome (key : String) (cap ex : Int) (s : Store) :
    (atomicIncrThenCheckSingle key cap ex s).1 =
      if s.count key < cap then Outcome.SUCCESS else Outcome.FAIL_CAP_MET := by
  have hiff : s.count key + 1 ≤ cap ↔ s.count key < cap := by omega
  unfold atomicIncrThenCheckSingle
  by_cases hlt : s.count key < cap <;> simp [hiff, hlt]

theorem incrThenCheckSingle_count (key : String) (cap ex : Int) (s : Store) (k : String) :
    (atomicIncrThenCheckSingle key cap ex s).2.count k =
      if k = key ∧ s.count key < cap then s.count k + 1 else s.count k := by
  have hiff : s.count key + 1 ≤ cap ↔ s.count key < cap := by omega
  unfold atomicIncrThenCheckSingle
  by_cases hlt : s.count key < cap <;> by_cases hk : k = key <;>
    simp [hiff, hlt, hk] <;> split_ifs <;> simp [hk] <;> omega

theorem incrThenCheckSingle_expiry (key : String) (cap ex : Int) (s : Store) (k : String) :
    (atomicIncrThenCheckSingle key cap ex s).2.expiry k =
      if k = key ∧ s.count key < cap ∧ s.count key = 0 then some ex else s.expiry k := by
  have hiff : s.count key + 1 ≤ cap ↔ s.count key < cap := by omega
  unfold atomicIncrThenCheckSingle
  by_cases hlt : s.count key < cap <;> by_cases hk : k = key <;>
    by_cases h0 : s.count key = 0 <;>
    simp [hiff, hlt, hk, h0] <;> split_ifs <;> simp_all <;> omega

theorem singleNoDecr_outcome (key : String) (cap ex : Int) (s : Store) :
    (atomicClaimSingleNoDecr key cap ex s).1 =
      if s.count key < cap then Outcome.SUCCESS else Outcome.FAIL_CAP_MET := by
  have hiff : s.count key + 1 ≤ cap ↔ s.count key < cap := by omega
  unfold atomicClaimSingleNoDecr
  by_cases hlt : s.count key < cap <;> simp [hiff, hlt]

theorem singleNoDecr_count (key : String) (cap ex : Int) (s : Store) (k : String) :
    (atomicClaimSingleNoDecr key cap ex s).2.count k =
      if k = key then s.count k + 1 else s.count k := by
  unfold atomicClaimSingleNoDecr
  by_cases hlt : s.count key + 1 ≤ cap <;> by_cases hk : k = key <;>
    simp [hlt, hk] <;> split_ifs <;> simp [hk]

theorem claimBoth_outcome (gk uk : String) (gc uc ex : Int) (s : Store) :
    (atomicClaimBoth gk uk gc uc ex s).1 =
      if s.count gk < gc then
        if s.count uk < uc then Outcome.SUCCESS else Outcome.FAIL_USER_CAP_MET
      else Outcome.FAIL_GLOBAL_CAP_MET := by
  unfold atomicClaimBoth
  split_ifs <;> rfl

theorem claimBoth_count (gk uk : String) (gc uc ex : Int) (s : Store)
    (hne : uk ≠ gk) (k : String) :
    (atomicClaimBoth gk uk gc uc ex s).2.count k =
      if (s.count gk < gc ∧ s.count uk < uc) ∧ (k = gk ∨ k = uk) then s.count k + 1
      else s.count k := by
  unfold atomicClaimBoth
  by_cases hg : s.count gk < gc <;> by_cases hu : s.count uk < uc <;>
    simp [hg, hu] <;> split_ifs <;>
    by_cases hkg : k = gk <;> by_cases hku : k = uk <;> simp_all

theorem claimBoth_expiry (gk uk : String) (gc uc ex : Int) (s : Store)
    (hne : uk ≠ gk) (k : String) :
    (atomicClaimBoth gk uk gc uc ex s).2.expiry k =
      if (s.count gk < gc ∧ s.count uk < uc) ∧
          ((k = gk ∧ s.count gk = 0) ∨ (k = uk ∧ s.count uk = 0)) then some ex
      else s.expiry k := by
  unfold atomicClaimBoth
  by_cases hg : s.count gk < gc <;> by_cases hu : s.count uk < uc <;>
    simp [hg, hu] <;> split_ifs <;>
    by_cases hkg : k = gk <;> by_cases hku : k = uk <;> simp_all <;> omega

theorem incrThenCheckBoth_outcome (gk uk : String) (gc uc ex : Int) (s : Store)
    (hne : uk ≠ gk) :
    (atomicIncrThenCheckBoth gk uk gc uc ex s).1 =
      if s.count uk < uc then
        if s.count gk < gc then Outcome.SUCCESS else Outcome.FAIL_GLOBAL_CAP_MET
      else Outcome.FAIL_USER_CAP_MET := by
  have hiu : s.count uk + 1 ≤ uc ↔ s.count uk < uc := by omega
  have hig : s.count gk + 1 ≤ gc ↔ s.count gk < gc := by omega
  unfold atomicIncrThenCheckBoth
  by_cases hu : s.count uk < uc <;> by_cases hg : s.count gk < gc <;>
    simp [hiu, hig, hu, hg, hne] <;> split_ifs <;> simp_all

theorem incrThenCheckBoth_count (gk uk : String) (gc uc ex : Int) (s : Store)
    (hne : uk ≠ gk) (k : String) :
    (atomicIncrThenCheckBoth gk uk gc uc ex s).2.count k =
      if (s.count uk < uc ∧ s.count gk < gc) ∧ (k = gk ∨ k = uk) then s.count k + 1
      else s.count k := by
  have hiu : s.count uk + 1 ≤ uc ↔ s.count uk < uc := by omega
  have hig : s.count gk + 1 ≤ gc ↔ s.count gk < gc := by omega
  unfold atomicIncrThenCheckBoth
  by_cases hu : s.count uk < uc <;> by_cases hg : s.count gk < gc <;>
    simp [hiu, hig, hu, hg, hne] <;> split_ifs <;>
    by_cases hkg : k = gk <;> by_cases hku : k = uk <;> simp_all <;> omega

theorem incrThenCheckBoth_expiry (gk uk : String) (gc uc ex : Int) (s : Store)
    (hne : uk ≠ gk) (k : String) :
    (atomicIncrThenCheckBoth gk uk gc uc ex s).2.expiry k =
      if (s.count uk < uc ∧ s.count gk < gc) ∧
          ((k = gk ∧ s.count gk = 0) ∨ (k = uk ∧ s.count uk = 0)) then some ex
      else s.expiry k := by
  have hiu : s.count uk + 1 ≤ uc ↔ s.count uk < uc := by omega
  have hig : s.count gk + 1 ≤ gc ↔ s.count gk < gc := by omega
  unfold atomicIncrThenCheckBoth
  by_cases hu : s.count uk < uc <;> by_cases hg : s.count gk < gc <;>
    simp [hiu, hig, hu, hg, hne] <;> split_ifs <;>
    by_cases hkg : k = gk <;> by_cases hku : k = uk <;> simp_all <;> omega

theorem reducedDecr_outcome (gk uk : String) (gc uc ex : Int) (s : Store)
    (hne : uk ≠ gk) :
    (atomicClaimBothReducedDecr gk uk gc uc ex s).1 =
      if s.count gk < gc then
        if s.count uk < uc then Outcome.SUCCESS else Outcome.FAIL_USER_CAP_MET
      else Outcome.FAIL_GLOBAL_CAP_MET := by
  have hig : s.count gk + 1 ≤ gc ↔ s.count gk < gc := by omega
  have hiu : s.count uk + 1 ≤ uc ↔ s.count uk < uc := by omega
  unfold atomicClaimBothReducedDecr
  by_cases hg : s.count gk < gc <;> by_cases hu : s.count uk < uc <;>
    simp [hig, hiu, hg, hu, hne] <;> split_ifs <;> simp_all

theorem reducedDecr_count (gk uk : String) (gc uc ex : Int) (s : Store)
    (hne : uk ≠ gk) (k : String) :
    (atomicClaimBothReducedDecr gk uk gc uc ex s).2.count k =
      if s.count gk < gc then
        if s.count uk < uc then
          (if k = gk ∨ k = uk then s.count k + 1 else s.count k)
        else (if k = uk then s.count k + 1 else s.count k)
      else (if k = gk then s.count k + 1 else s.count k) := by
  have hig : s.count gk + 1 ≤ gc ↔ s.count gk < gc := by omega
  have hiu : s.count uk + 1 ≤ uc ↔ s.count uk < uc := by omega
  unfold atomicClaimBothReducedDecr
  by_cases hg : s.count gk < gc <;> by_cases hu : s.count uk < uc <;>
    simp [hig, hiu, hg, hu, hne] <;> split_ifs <;>
    by_cases hkg : k = gk <;> by_cases hku : k = uk <;> simp_all <;> omega

theorem reducedDecr_expiry (gk uk : String) (gc uc ex : Int) (s : Store)
    (hne : uk ≠ gk) (k : String) :
    (atomicClaimBothReducedDecr gk uk gc uc ex s).2.expiry k =
      if (s.count gk < gc ∧ s.count uk < uc) ∧
          ((k = gk ∧ s.count gk = 0) ∨ (k = uk ∧ s.count uk = 0)) then some ex
      else s.expiry k := by
  have hig : s.count gk + 1 ≤ gc ↔ s.count gk < gc := by omega
  have hiu : s.count uk + 1 ≤ uc ↔ s.count uk < uc := by omega
  unfold atomicClaimBothReducedDecr
  by_cases hg : s.count gk < gc <;> by_cases hu : s.count uk < uc <;>
    simp [hig, hiu, hg, hu, hne] <;> split_ifs <;>
    by_cases hkg : k = gk <;> by_cases hku : k = uk <;> simp_all <;> omega

theorem optV1Both_granted (uk gk : String) (uc gc ex : Int) (s : Store)
    (hne : uk ≠ gk) :
    (optV1ClaimBoth uk gk uc gc ex s).1 =
      (decide (s.count uk < uc) && decide (s.count gk < gc)) := by
  unfold optV1ClaimBoth
  by_cases hu : s.count uk < uc
  · have h1 : (atomicIncrThenCheckSingle uk uc ex s).1 = Outcome.SUCCESS := by
      rw [incrThenCheckSingle_outcome]; simp [hu]
    have hgk : (atomicIncrThenCheckSingle uk uc ex s).2.count gk = s.count gk := by
      rw [incrThenCheckSingle_count]; simp [Ne.symm hne]
    have h2 := incrThenCheckSingle_outcome gk gc ex (atomicIncrThenCheckSingle uk uc ex s).2
    rw [hgk] at h2
    by_cases hg : s.count gk < gc <;> simp [h1, h2, hu, hg]
  · have h1 : (atomicIncrThenCheckSingle uk uc ex s).1 = Outcome.FAIL_CAP_MET := by
      rw [incrThenCheckSingle_outcome]; simp [hu]
    simp [h1, hu]

theorem optV1Both_count (uk gk : String) (uc gc ex : Int) (s : Store)
    (hne : uk ≠ gk) (k : String) :
    (optV1ClaimBoth uk gk uc gc ex s).2.1.count k =
      if (s.count uk < uc ∧ s.count gk < gc) ∧ (k = gk ∨ k = uk) then s.count k + 1
      else s.count k := by
  unfold optV1ClaimBoth
  by_cases hu : s.count uk < uc
  · have h1 : (atomicIncrThenCheckSingle uk uc ex s).1 = Outcome.SUCCESS := by
      rw [incrThenCheckSingle_outcome]; simp [hu]
    have hgk : (atomicIncrThenCheckSingle uk uc ex s).2.count gk = s.count gk := by
      rw [incrThenCheckSingle_count]; simp [Ne.symm hne]
    have h2 := incrThenCheckSingle_outcome gk gc ex (atomicIncrThenCheckSingle uk uc ex s).2
    rw [hgk] at h2
    by_cases hg : s.count gk < gc
    · have h2s : (atomicIncrThenCheckSingle gk gc ex
          (atomicIncrThenCheckSingle uk uc ex s).2).1 = Outcome.SUCCESS := by
        rw [h2]; simp [hg]
      simp only [h1, h2s, if_pos rfl, reduceIte]
      rw [incrThenCheckSingle_count, incrThenCheckSingle_count]
      have huk : (atomicIncrThenCheckSingle uk uc ex s).2.count uk = s.count uk + 1 := by
        rw [incrThenCheckSingle_count]; simp [hu]
      by_cases hkg : k = gk <;> by_cases hku : k = uk <;>
        simp_all [incrThenCheckSingle_count, hgk]
    · have h2f : (atomicIncrThenCheckSingle gk gc ex
          (atomicIncrThenCheckSingle uk uc ex s).2).1 = Outcome.FAIL_CAP_MET := by
        rw [h2]; simp [hg]
      simp only [h1, h2f, reduceCtorEq, if_pos rfl, reduceIte, Store.count_decr]
      rw [incrThenCheckSingle_count, incrThenCheckSingle_count]
      by_cases hkg : k = gk <;> by_cases hku : k = uk <;>
        simp_all [incrThenCheckSingle_count, hgk] <;> omega
  · have h1 : (atomicIncrThenCheckSingle uk uc ex s).1 = Outcome.FAIL_CAP_MET := by
      rw [incrThenCheckSingle_outcome]; simp [hu]
    simp only [h1, reduceCtorEq, reduceIte]
    rw [incrThenCheckSingle_count]
    simp [hu]

/-! ## Invariants of sequentially composed primitive executions -/

theorem runSingleClaims_count (key : String) (cap : Int) (exs : List Int) (s : Store) :
    (runSingleClaims key cap exs s).2.count key =
      s.count key + ((runSingleClaims key cap exs s).1 : Int) := by
  induction exs generalizing s with
  | nil => simp [runSingleClaims]
  | cons ex rest ih =>
    unfold runSingleClaims
    have hc := singleKey_count key cap ex s key
    have ho := singleKey_outcome key cap ex s
    by_cases hlt : s.count key < cap <;>
      simp only [ho, hlt, if_pos, if_neg, ite_true, ite_false, reduceIte] <;>
      rw [ih] <;> simp [hc, hlt] <;> push_cast <;> ring

theorem runSingleClaims_le (key : String) (cap : Int) (exs : List Int) (s : Store)
    (h : s.count key ≤ cap) :
    (runSingleClaims key cap exs s).2.count key ≤ cap := by
  induction exs generalizing s with
  | nil => simpa [runSingleClaims] using h
  | cons ex rest ih =>
    unfold runSingleClaims
    have hc := singleKey_count key cap ex s key
    apply ih
    rw [hc]
    by_cases hlt : s.count key < cap <;> simp [hlt] <;> omega

theorem runBothClaims_count (gk : String) (gc : Int) (reqs : List (String × Int × Int))
    (s : Store) (h : ∀ r ∈ reqs, r.1 ≠ gk) :
    (runBothClaims gk gc reqs s).2.count gk =
      s.count gk + ((runBothClaims gk gc reqs s).1 : Int) := by
  induction reqs generalizing s with
  | nil => simp [runBothClaims]
  | cons req rest ih =>
    obtain ⟨uk, uc, ex⟩ := req
    have hne : uk ≠ gk := h (uk, uc, ex) (List.mem_cons_self _ _)
    have hrest : ∀ r ∈ rest, r.1 ≠ gk := fun r hr => h r (List.mem_cons_of_mem _ hr)
    unfold runBothClaims
    have hc := claimBoth_count gk uk gc uc ex s hne gk
    have ho := claimBoth_outcome gk uk gc uc ex s
    by_cases hg : s.count gk < gc <;> by_cases hu : s.count uk < uc <;>
      simp only [ho, hg, hu, ite_true, ite_false, reduceIte] <;>
      rw [ih _ hrest] <;> simp [hc, hg, hu] <;> push_cast <;> ring

theorem runBothClaims_le (gk : String) (gc : Int) (reqs : List (String × Int × Int))
    (s : Store) (h : ∀ r ∈ reqs, r.1 ≠ gk) (hcap : s.count gk ≤ gc) :
    (runBothClaims gk gc reqs s).2.count gk ≤ gc := by
  induction reqs generalizing s with
  | nil => simpa [runBothClaims] using hcap
  | cons req rest ih =>
    obtain ⟨uk, uc, ex⟩ := req
    have hne : uk ≠ gk := h (uk, uc, ex) (List.mem_cons_self _ _)
    have hrest : ∀ r ∈ rest, r.1 ≠ gk := fun r hr => h r (List.mem_cons_of_mem _ hr)
    unfold runBothClaims
    have hc := claimBoth_count gk uk gc uc ex s hne gk
    apply ih _ hrest
    rw [hc]
    by_cases hg : s.count gk < gc <;> by_cases hu : s.count uk < uc <;>
      simp [hg, hu] <;> omega

/-! ## Claim C1 -/

/-- C1 counterexample.  The claim asserts the cap invariant for "every
orchestrator variant that claims through the primitives", and its sources
include `claim_offers_flexible` (offerings_lua/locust.py).  That variant
increments the global cell with a bare, checkless `INCR` (pipeline 2,
"best-effort global increments").  Concretely: offer `X` has
`global_cap = 1`; two distinct users each run the orchestrator once,
sequentially (a particular interleaving of two concurrent runs); both are
granted `X`, and the global cell ends at 2 — two non-compensated
successful grants recorded against a cell of cap 1. -/
theorem claim1_counterexample :
    (claim_offers_flexible catalogX11 "u1" "20240101" 100 ["X"] Store.empty).1 = ["X"] ∧
    (claim_offers_flexible catalogX11 "u2" "20240101" 100 ["X"]
        (claim_offers_flexible catalogX11 "u1" "20240101" 100 ["X"] Store.empty).2.1).1
      = ["X"] ∧
    catalogX11 "X" = some ⟨OfferType.BOTH, 1, some 1⟩ ∧
    (claim_offers_flexible catalogX11 "u2" "20240101" 100 ["X"]
        (claim_offers_flexible catalogX11 "u1" "20240101" 100 ["X"] Store.empty).2.1).2.1.count
        (plainGlobalKey "X" "20240101") = 2 ∧
    ¬ ((claim_offers_flexible catalogX11 "u2" "20240101" 100 ["X"]
        (claim_offers_flexible catalogX11 "u1" "20240101" 100 ["X"] Store.empty).2.1).2.1.count
        (plainGlobalKey "X" "20240101") ≤ 1) := by
  refine ⟨by decide, by decide, by decide, by decide, by decide⟩

/-- C1 (amended): the cap invariant does hold for the atomic claim
primitives themselves.  Since each Lua script executes as one indivisible
unit, any interleaving of concurrent executions against a cell is a
sequential composition of complete executions; for the single-cell
check-then-increment script, and for the dual-cell script's global cell
(shared across arbitrary per-user keys and caps), the number of successful
grants in any such history starting from an absent cell never exceeds the
cap.  Orchestrator variants that mutate a cap-governed cell outside the
primitives (`claim_offers_flexible`, `locust_v3`'s bare global INCR, and
the non-atomic one-by-one loops) are NOT covered, as the counterexample
shows. -/
theorem claim1_cap_invariant_of_atomic_primitives :
    (∀ (key : String) (cap : Int) (exs : List Int) (s : Store),
        s.count key = 0 → 0 ≤ cap →
        ((runSingleClaims key cap exs s).1 : Int) ≤ cap) ∧
    (∀ (gk : String) (gc : Int) (reqs : List (String × Int × Int)) (s : Store),
        s.count gk = 0 → 0 ≤ gc → (∀ r ∈ reqs, r.1 ≠ gk) →
        ((runBothClaims gk gc reqs s).1 : Int) ≤ gc) := by
  constructor
  · intro key cap exs s h0 hcap
    have hcnt := runSingleClaims_count key cap exs s
    have hle := runSingleClaims_le key cap exs s (by omega)
    omega
  · intro gk gc reqs s h0 hcap hne
    have hcnt := runBothClaims_count gk gc reqs s hne
    have hle := runBothClaims_le gk gc reqs s hne (by omega)
    omega

/-- Witness for C1 (amended): three single-cell claims against a fresh
cell of cap 2 yield at most 2 grants, and a dual-cell history of three
different users against a fresh global cell of cap 2 yields at most 2. -/
theorem claim1_cap_invariant_witness :
    Store.empty.count "offer:\x7bX\x7d:count:20240101" = 0 ∧
    ((runSingleClaims "offer:\x7bX\x7d:count:20240101" 2 [10, 20, 30] Store.empty).1 : Int) ≤ 2 ∧
    ((runBothClaims "offer:\x7bX\x7d:count:20240101" 2
        [("u1", 1, 10), ("u2", 1, 10), ("u3", 1, 10)] Store.empty).1 : Int) ≤ 2 :=
  ⟨rfl,
   claim1_cap_invariant_of_atomic_primitives.1 "offer:\x7bX\x7d:count:20240101" 2
     [10, 20, 30] Store.empty rfl (by decide),
   claim1_cap_invariant_of_atomic_primitives.2 "offer:\x7bX\x7d:count:20240101" 2
     [("u1", 1, 10), ("u2", 1, 10), ("u3", 1, 10)] Store.empty rfl (by decide)
     (by decide)⟩

/-! ## Claim C3 -/

/-- C3: single-cell claim semantics.  For both cited scripts
(`ATOMIC_CLAIM_SINGLE_KEY_LUA` of v4.py and
`ATOMIC_INCR_THEN_CHECK_SINGLE_LUA` of opt_v1.py): when the stored count
(absent = 0) has met the cap, the outcome is `FAIL_CAP_MET` and the store
is observationally unchanged (for the incr-then-check script the INCR is
exactly compensated by the DECR); otherwise the cell is incremented by
one, its expiry is set to `expireAt` exactly when the post-increment value
is 1, and the outcome is `SUCCESS`. -/
theorem claim3_single_cell_semantics (key : String) (cap ex : Int) (s : Store) :
    (cap ≤ s.count key →
      atomicClaimSingleKey key cap ex s = (Outcome.FAIL_CAP_MET, s) ∧
      (atomicIncrThenCheckSingle key cap ex s).1 = Outcome.FAIL_CAP_MET ∧
      (∀ k, (atomicIncrThenCheckSingle key cap ex s).2.count k = s.count k) ∧
      (∀ k, (atomicIncrThenCheckSingle key cap ex s).2.expiry k = s.expiry k)) ∧
    (s.count key < cap →
      (atomicClaimSingleKey key cap ex s).1 = Outcome.SUCCESS ∧
      (atomicIncrThenCheckSingle key cap ex s).1 = Outcome.SUCCESS ∧
      (atomicClaimSingleKey key cap ex s).2.count key = s.count key + 1 ∧
      (atomicIncrThenCheckSingle key cap ex s).2.count key = s.count key + 1 ∧
      (atomicClaimSingleKey key cap ex s).2.expiry key
        = (if s.count key + 1 = 1 then some ex else s.expiry key) ∧
      (atomicIncrThenCheckSingle key cap ex s).2.expiry key
        = (if s.count key + 1 = 1 then some ex else s.expiry key)) := by
  constructor
  · intro hge
    have hlt : ¬ s.count key < cap := by omega
    refine ⟨?_, ?_, ?_, ?_⟩
    · unfold atomicClaimSingleKey; simp [hlt]
    · rw [incrThenCheckSingle_outcome]; simp [hlt]
    · intro k
      rw [incrThenCheckSingle_count]
      simp [hlt]
    · intro k
      rw [incrThenCheckSingle_expiry]
      simp [hlt]
  · intro hlt
    have h1 : s.count key + 1 = 1 ↔ s.count key = 0 := by omega
    refine ⟨?_, ?_, ?_, ?_, ?_, ?_⟩
    · rw [singleKey_outcome]; simp [hlt]
    · rw [incrThenCheckSingle_outcome]; simp [hlt]
    · rw [singleKey_count]; simp [hlt]
    · rw [incrThenCheckSingle_count]; simp [hlt]
    · rw [singleKey_expiry]
      by_cases h0 : s.count key = 0
      · have hc : (0 : Int) < cap := by omega
        simp [h0, h1, hc]
      · simp [hlt, h0, h1]
    · rw [incrThenCheckSingle_expiry]
      by_cases h0 : s.count key = 0
      · have hc : (0 : Int) < cap := by omega
        simp [h0, h1, hc]
      · simp [hlt, h0, h1]

/-- Witness for C3: at `cap = 1` on an absent cell, both scripts grant,
increment to 1 and set the expiry. -/
theorem claim3_single_cell_witness :
    Store.empty.count "offer:K:20240101" < 1 ∧
    (atomicClaimSingleKey "offer:K:20240101" 1 77 Store.empty).1 = Outcome.SUCCESS :=
  ⟨by decide,
   ((claim3_single_cell_semantics "offer:K:20240101" 1 77 Store.empty).2 (by decide)).1⟩

/-! ## Claim C4 -/

/-- C4: dual-cell check-then-increment semantics of
`ATOMIC_CLAIM_BOTH_LUA` (v4.py, identical in batch_locust.py), for the
distinct global/user keys the callers construct: global count at cap →
`FAIL_GLOBAL_CAP_MET`, store untouched; else user count at cap →
`FAIL_USER_CAP_MET`, store untouched; else both cells incremented by one,
expiry set on each cell whose post-increment value is 1, `SUCCESS`. -/
theorem claim4_dual_cell_semantics (gk uk : String) (gc uc ex : Int) (s : Store)
    (hne : uk ≠ gk) :
    (gc ≤ s.count gk →
      atomicClaimBoth gk uk gc uc ex s = (Outcome.FAIL_GLOBAL_CAP_MET, s)) ∧
    (s.count gk < gc → uc ≤ s.count uk →
      atomicClaimBoth gk uk gc uc ex s = (Outcome.FAIL_USER_CAP_MET, s)) ∧
    (s.count gk < gc → s.count uk < uc →
      (atomicClaimBoth gk uk gc uc ex s).1 = Outcome.SUCCESS ∧
      (atomicClaimBoth gk uk gc uc ex s).2.count gk = s.count gk + 1 ∧
      (atomicClaimBoth gk uk gc uc ex s).2.count uk = s.count uk + 1 ∧
      (∀ k, k ≠ gk → k ≠ uk → (atomicClaimBoth gk uk gc uc ex s).2.count k = s.count k) ∧
      (atomicClaimBoth gk uk gc uc ex s).2.expiry gk
        = (if s.count gk + 1 = 1 then some ex else s.expiry gk) ∧
      (atomicClaimBoth gk uk gc uc ex s).2.expiry uk
        = (if s.count uk + 1 = 1 then some ex else s.expiry uk)) := by
  refine ⟨?_, ?_, ?_⟩
  · intro hge
    have hlt : ¬ s.count gk < gc := by omega
    unfold atomicClaimBoth; simp [hlt]
  · intro hg hge
    have hlt : ¬ s.count uk < uc := by omega
    unfold atomicClaimBoth; simp [hg, hlt]
  · intro hg hu
    have h1g : s.count gk + 1 = 1 ↔ s.count gk = 0 := by omega
    have h1u : s.count uk + 1 = 1 ↔ s.count uk = 0 := by omega
    refine ⟨?_, ?_, ?_, ?_, ?_, ?_⟩
    · rw [claimBoth_outcome]; simp [hg, hu]
    · rw [claimBoth_count gk uk gc uc ex s hne]; simp [hg, hu]
    · rw [claimBoth_count gk uk gc uc ex s hne]; simp [hg, hu]
    · intro k hkg hku
      rw [claimBoth_count gk uk gc uc ex s hne]; simp [hkg, hku]
    · rw [claimBoth_expiry gk uk gc uc ex s hne]
      by_cases h0 : s.count gk = 0
      · have hc : (0 : Int) < gc := by omega
        simp [hu, h0, h1g, hc, Ne.symm hne]
      · simp [hg, hu, h0, h1g, Ne.symm hne]
    · rw [claimBoth_expiry gk uk gc uc ex s hne]
      by_cases h0 : s.count uk = 0
      · have hc : (0 : Int) < uc := by omega
        simp [hg, h0, h1u, hc, hne]
      · simp [hg, hu, h0, h1u, hne]

/-- Witness for C4: on an empty store with caps 2/1 and the v4 key scheme
for offer `X`, user `u1`, the dual-cell claim succeeds. -/
theorem claim4_dual_cell_witness :
    v4UserKey "X" "u1" "20240101" ≠ v4GlobalKey "X" "20240101" ∧
    (atomicClaimBoth (v4GlobalKey "X" "20240101") (v4UserKey "X" "u1" "20240101")
        2 1 77 Store.empty).1 = Outcome.SUCCESS :=
  ⟨by decide,
   (((claim4_dual_cell_semantics (v4GlobalKey "X" "20240101")
        (v4UserKey "X" "u1" "20240101") 2 1 77 Store.empty (by decide)).2.2)
      (by decide) (by decide)).1⟩

/-! ## Claim C5 -/

/-- C5 counterexample.  The claim asserts that in every dual-cell claim
under the compensating strategy the USER cell is incremented first, and
that on a global-cap failure the global cell is decremented back down.
`ATOMIC_CLAIM_BOTH_REDUCED_DECR_LUA` (opt_v2.py), one of the claim's
sources, does neither: with `global_cap = 0` and `user_cap = 5` on an
empty store it returns `FAIL_GLOBAL_CAP_MET` leaving the global cell at 1
(the over-limit increment is kept, no decrement), while the claim's
user-first-with-global-rollback procedure would leave the global cell
at 0. -/
theorem claim5_counterexample :
    (atomicClaimBothReducedDecr "G" "U" 0 5 99 Store.empty).1
      = Outcome.FAIL_GLOBAL_CAP_MET ∧
    (atomicClaimBothReducedDecr "G" "U" 0 5 99 Store.empty).2.count "G" = 1 ∧
    (atomicClaimBothReducedDecr "G" "U" 0 5 99 Store.empty).2.count "U" = 0 :=
  ⟨by decide, by decide, by decide⟩

/-- C5 (amended): the repository carries two different compensating
dual-cell scripts.  `ATOMIC_INCR_THEN_CHECK_BOTH_LUA`
(one_node_locust.py / multi_node_locust.py) is as the claim describes and
fully compensates: user cell incremented first; on a user-cap overflow it
is decremented back and `FAIL_USER_CAP_MET` returned; on a global-cap
overflow both cells are decremented back and `FAIL_GLOBAL_CAP_MET`
returned — both failure paths leave every cell at its old value; on
success expiries are set on newly created cells.
`ATOMIC_CLAIM_BOTH_REDUCED_DECR_LUA` (opt_v2.py) instead increments the
GLOBAL cell first, keeps the over-limit increment on the cell whose cap
was hit (global cell +1 on `FAIL_GLOBAL_CAP_MET`, user cell +1 on
`FAIL_USER_CAP_MET`, with only the global cell rolled back in the latter
case).  The client-side compensating composition of opt_v1.py
(`_claim_offers_in_batch_iterative`, BOTH branch) is user-first and nets
to zero on failure. -/
theorem claim5_compensating_strategy_semantics (gk uk : String) (gc uc ex : Int)
    (s : Store) (hne : uk ≠ gk) :
    ((atomicIncrThenCheckBoth gk uk gc uc ex s).1 =
      if s.count uk < uc then
        if s.count gk < gc then Outcome.SUCCESS else Outcome.FAIL_GLOBAL_CAP_MET
      else Outcome.FAIL_USER_CAP_MET) ∧
    (uc ≤ s.count uk →
      ∀ k, (atomicIncrThenCheckBoth gk uk gc uc ex s).2.count k = s.count k) ∧
    (s.count uk < uc → gc ≤ s.count gk →
      ∀ k, (atomicIncrThenCheckBoth gk uk gc uc ex s).2.count k = s.count k) ∧
    (s.count uk < uc → s.count gk < gc →
      (atomicIncrThenCheckBoth gk uk gc uc ex s).2.expiry uk
        = (if s.count uk = 0 then some ex else s.expiry uk) ∧
      (atomicIncrThenCheckBoth gk uk gc uc ex s).2.expiry gk
        = (if s.count gk = 0 then some ex else s.expiry gk)) ∧
    ((atomicClaimBothReducedDecr gk uk gc uc ex s).1 =
      if s.count gk < gc then
        if s.count uk < uc then Outcome.SUCCESS else Outcome.FAIL_USER_CAP_MET
      else Outcome.FAIL_GLOBAL_CAP_MET) ∧
    (gc ≤ s.count gk →
      (atomicClaimBothReducedDecr gk uk gc uc ex s).2.count gk = s.count gk + 1 ∧
      (atomicClaimBothReducedDecr gk uk gc uc ex s).2.count uk = s.count uk) ∧
    (s.count gk < gc → uc ≤ s.count uk →
      (atomicClaimBothReducedDecr gk uk gc uc ex s).2.count gk = s.count gk ∧
      (atomicClaimBothReducedDecr gk uk gc uc ex s).2.count uk = s.count uk + 1) ∧
    ((optV1ClaimBoth uk gk uc gc ex s).1 =
      (decide (s.count uk < uc) && decide (s.count gk < gc))) ∧
    (∀ k, (optV1ClaimBoth uk gk uc gc ex s).2.1.count k =
      if (s.count uk < uc ∧ s.count gk < gc) ∧ (k = gk ∨ k = uk) then s.count k + 1
      else s.count k) := by
  refine ⟨incrThenCheckBoth_outcome gk uk gc uc ex s hne, ?_, ?_, ?_, reducedDecr_outcome gk uk gc uc ex s hne, ?_, ?_, optV1Both_granted uk gk uc gc ex s hne, optV1Both_count uk gk uc gc ex s hne⟩
  · intro hge k
    have hu : ¬ s.count uk < uc := by omega
    rw [incrThenCheckBoth_count gk uk gc uc ex s hne]
    simp [hu]
  · intro hu hge k
    have hg : ¬ s.count gk < gc := by omega
    rw [incrThenCheckBoth_count gk uk gc uc ex s hne]
    simp [hg]
  · intro hu hg
    constructor
    · rw [incrThenCheckBoth_expiry gk uk gc uc ex s hne]
      by_cases h0 : s.count uk = 0
      · have hc : (0 : Int) < uc := by omega
        simp [hg, h0, hc, hne]
      · simp [hu, hg, h0, hne]
    · rw [incrThenCheckBoth_expiry gk uk gc uc ex s hne]
      by_cases h0 : s.count gk = 0
      · have hc : (0 : Int) < gc := by omega
        simp [hu, h0, hc, Ne.symm hne]
      · simp [hu, hg, h0, Ne.symm hne]
  · intro hge
    have hg : ¬ s.count gk < gc := by omega
    constructor <;> rw [reducedDecr_count gk uk gc uc ex s hne] <;> simp [hg, hne, Ne.symm hne]
  · intro hg hge
    have hu : ¬ s.count uk < uc := by omega
    constructor <;> rw [reducedDecr_count gk uk gc uc ex s hne] <;> simp [hg, hu, hne, Ne.symm hne]

/-- Witness for C5 (amended): on an empty store with caps 1/1 both
compensating scripts and the opt_v1 composition grant. -/
theorem claim5_compensating_witness :
    ("user:U" : String) ≠ "global:G" ∧
    (atomicIncrThenCheckBoth "global:G" "user:U" 1 1 9 Store.empty).1 = Outcome.SUCCESS :=
  ⟨by decide, by
    have h := (claim5_compensating_strategy_semantics "global:G" "user:U" 1 1 9
      Store.empty (by decide)).1
    rw [h]; decide⟩

/-! ## Claim C6 -/

/-- C6 counterexample.  The claim asserts that a failed dual-cell claim
under the compensating strategy leaves the net change to both cells at 0.
For `ATOMIC_CLAIM_BOTH_REDUCED_DECR_LUA` (opt_v2.py), a cited source, a
`FAIL_USER_CAP_MET` (user cap 0, global cap 5, empty store) leaves the
user cell at 1: the user cell's over-limit increment is kept; only the
global increment is rolled back. -/
theorem claim6_counterexample :
    (atomicClaimBothReducedDecr "G2" "U2" 5 0 99 Store.empty).1
      = Outcome.FAIL_USER_CAP_MET ∧
    (atomicClaimBothReducedDecr "G2" "U2" 5 0 99 Store.empty).2.count "U2" = 1 ∧
    (atomicClaimBothReducedDecr "G2" "U2" 5 0 99 Store.empty).2.count "G2" = 0 :=
  ⟨by decide, by decide, by decide⟩

/-- C6 (amended): exactly-once accounting holds for successes everywhere:
each single-cell script's success increments its cell by exactly 1 and
each dual-cell script's success increments both cells by exactly 1.  A
failed dual-cell claim nets to zero on both cells under
`ATOMIC_INCR_THEN_CHECK_BOTH_LUA` (one_node/multi_node), but under
opt_v2's reduced-decr script the cell whose cap was hit retains a net +1
(global cell on `FAIL_GLOBAL_CAP_MET`, user cell on
`FAIL_USER_CAP_MET`). -/
theorem claim6_exactly_once_accounting (key gk uk : String) (cap gc uc ex : Int)
    (s : Store) (hne : uk ≠ gk) :
    ((atomicClaimSingleKey key cap ex s).1 = Outcome.SUCCESS →
      (atomicClaimSingleKey key cap ex s).2.count key = s.count key + 1) ∧
    ((atomicIncrThenCheckSingle key cap ex s).1 = Outcome.SUCCESS →
      (atomicIncrThenCheckSingle key cap ex s).2.count key = s.count key + 1) ∧
    ((atomicClaimSingleNoDecr key cap ex s).1 = Outcome.SUCCESS →
      (atomicClaimSingleNoDecr key cap ex s).2.count key = s.count key + 1) ∧
    ((atomicClaimBoth gk uk gc uc ex s).1 = Outcome.SUCCESS →
      (atomicClaimBoth gk uk gc uc ex s).2.count gk = s.count gk + 1 ∧
      (atomicClaimBoth gk uk gc uc ex s).2.count uk = s.count uk + 1) ∧
    ((atomicIncrThenCheckBoth gk uk gc uc ex s).1 = Outcome.SUCCESS →
      (atomicIncrThenCheckBoth gk uk gc uc ex s).2.count gk = s.count gk + 1 ∧
      (atomicIncrThenCheckBoth gk uk gc uc ex s).2.count uk = s.count uk + 1) ∧
    ((atomicClaimBothReducedDecr gk uk gc uc ex s).1 = Outcome.SUCCESS →
      (atomicClaimBothReducedDecr gk uk gc uc ex s).2.count gk = s.count gk + 1 ∧
      (atomicClaimBothReducedDecr gk uk gc uc ex s).2.count uk = s.count uk + 1) ∧
    ((atomicIncrThenCheckBoth gk uk gc uc ex s).1 ≠ Outcome.SUCCESS →
      (atomicIncrThenCheckBoth gk uk gc uc ex s).2.count gk = s.count gk ∧
      (atomicIncrThenCheckBoth gk uk gc uc ex s).2.count uk = s.count uk) ∧
    ((atomicClaimBothReducedDecr gk uk gc uc ex s).1 = Outcome.FAIL_GLOBAL_CAP_MET →
      (atomicClaimBothReducedDecr gk uk gc uc ex s).2.count gk = s.count gk + 1 ∧
      (atomicClaimBothReducedDecr gk uk gc uc ex s).2.count uk = s.count uk) ∧
    ((atomicClaimBothReducedDecr gk uk gc uc ex s).1 = Outcome.FAIL_USER_CAP_MET →
      (atomicClaimBothReducedDecr gk uk gc uc ex s).2.count gk = s.count gk ∧
      (atomicClaimBothReducedDecr gk uk gc uc ex s).2.count uk = s.count uk + 1) := by
  have hos := singleKey_outcome key cap ex s
  have hoi := incrThenCheckSingle_outcome key cap ex s
  have hon := singleNoDecr_outcome key cap ex s
  have hob := claimBoth_outcome gk uk gc uc ex s
  have hoib := incrThenCheckBoth_outcome gk uk gc uc ex s hne
  have hord := reducedDecr_outcome gk uk gc uc ex s hne
  refine ⟨?_, ?_, ?_, ?_, ?_, ?_, ?_, ?_, ?_⟩
  · intro h
    by_cases hlt : s.count key < cap
    · rw [singleKey_count]; simp [hlt]
    · rw [hos] at h; simp [hlt] at h
  · intro h
    by_cases hlt : s.count key < cap
    · rw [incrThenCheckSingle_count]; simp [hlt]
    · rw [hoi] at h; simp [hlt] at h
  · intro h
    rw [singleNoDecr_count]; simp
  · intro h
    rw [hob] at h
    by_cases hg : s.count gk < gc <;> by_cases hu : s.count uk < uc <;>
      simp [hg, hu] at h <;>
      constructor <;> rw [claimBoth_count gk uk gc uc ex s hne] <;> simp [hg, hu]
  · intro h
    rw [hoib] at h
    by_cases hg : s.count gk < gc <;> by_cases hu : s.count uk < uc <;>
      simp [hg, hu] at h <;>
      constructor <;> rw [incrThenCheckBoth_count gk uk gc uc ex s hne] <;> simp [hg, hu]
  · intro h
    rw [hord] at h
    by_cases hg : s.count gk < gc <;> by_cases hu : s.count uk < uc <;>
      simp [hg, hu] at h <;>
      constructor <;> rw [reducedDecr_count gk uk gc uc ex s hne] <;> simp [hg, hu]
  · intro h
    rw [hoib] at h
    constructor <;> rw [incrThenCheckBoth_count gk uk gc uc ex s hne] <;>
      by_cases hg : s.count gk < gc <;> by_cases hu : s.count uk < uc <;>
      simp [hg, hu] at h ⊢
  · intro h
    rw [hord] at h
    by_cases hg : s.count gk < gc <;> by_cases hu : s.count uk < uc <;>
      simp [hg, hu] at h <;>
      constructor <;> rw [reducedDecr_count gk uk gc uc ex s hne] <;>
      simp [hg, hu, hne, Ne.symm hne]
  · intro h
    rw [hord] at h
    by_cases hg : s.count gk < gc <;> by_cases hu : s.count uk < uc <;>
      simp [hg, hu] at h <;>
      constructor <;> rw [reducedDecr_count gk uk gc uc ex s hne] <;>
      simp [hg, hu, hne, Ne.symm hne]

/-- Witness for C6 (amended): a successful v4 dual-cell claim on an empty
store takes both cells from 0 to 1. -/
theorem claim6_exactly_once_witness :
    ("u:W" : String) ≠ "g:W" ∧
    (atomicClaimBoth "g:W" "u:W" 3 2 9 Store.empty).2.count "g:W"
      = Store.empty.count "g:W" + 1 :=
  ⟨by decide,
   ((claim6_exactly_once_accounting "k:W" "g:W" "u:W" 1 3 2 9 Store.empty
      (by decide)).2.2.2.1 (by decide)).1⟩

/-! ## Claim C7 -/

/-- C7 counterexample.  The claim asserts, across all claim-primitive
variants, that a cell's expiry is set only by the increment that creates
it (post-increment value 1) and is never altered by later increments.
`_claim_offers_one_by_one` (locust_sharded.py), a cited source, issues
`EXPIREAT` after EVERY successful increment with a per-run recomputed
timestamp: two sequential runs against a GLOBAL_ONLY offer of cap 2 leave
the cell at count 2 with its expiry rewritten from 100 to 200 by the
second (non-creating) increment. -/
theorem claim7_counterexample :
    (claim_offers_one_by_one catalogG2 "u1" "20240101" 100 ["G"] 1
        Store.empty).2.1.expiry (plainGlobalKey "G" "20240101") = some 100 ∧
    (claim_offers_one_by_one catalogG2 "u2" "20240101" 200 ["G"] 1
        (claim_offers_one_by_one catalogG2 "u1" "20240101" 100 ["G"] 1
          Store.empty).2.1).2.1.count (plainGlobalKey "G" "20240101") = 2 ∧
    (claim_offers_one_by_one catalogG2 "u2" "20240101" 200 ["G"] 1
        (claim_offers_one_by_one catalogG2 "u1" "20240101" 100 ["G"] 1
          Store.empty).2.1).2.1.expiry (plainGlobalKey "G" "20240101") = some 200 ∧
    (some (200 : Int) ≠ some (100 : Int)) :=
  ⟨by decide, by decide, by decide, by decide⟩

/-- C7 (amended): expiry set-once holds for the Lua script primitives: in
one execution of the v4 single-cell script or the one_node dual-cell
script, a cell's expiry is set to the script's `expireAt` argument exactly
when that execution creates the cell (pre-count 0, post-increment 1), and
is otherwise preserved; consequently, over any sequence of single-cell
script executions against an already-created cell the expiry never
changes.  The non-atomic one-by-one loops (locust_sharded.py /
locust_cluster.py) instead re-issue `EXPIREAT` on every successful
increment, as the counterexample shows. -/
theorem claim7_expiry_set_once (key gk uk : String) (cap gc uc ex : Int)
    (s : Store) (hne : uk ≠ gk) :
    (∀ k, (atomicClaimSingleKey key cap ex s).2.expiry k =
      if k = key ∧ s.count key < cap ∧ s.count key = 0 then some ex
      else s.expiry k) ∧
    (∀ k, (atomicIncrThenCheckBoth gk uk gc uc ex s).2.expiry k =
      if (s.count uk < uc ∧ s.count gk < gc) ∧
          ((k = gk ∧ s.count gk = 0) ∨ (k = uk ∧ s.count uk = 0)) then some ex
      else s.expiry k) ∧
    (∀ exs, 0 < s.count key →
      (runSingleClaims key cap exs s).2.expiry key = s.expiry key) := by
  refine ⟨fun k => singleKey_expiry key cap ex s k,
          fun k => incrThenCheckBoth_expiry gk uk gc uc ex s hne k, ?_⟩
  intro exs hpos
  clear hne
  induction exs generalizing s with
  | nil => simp [runSingleClaims]
  | cons e rest ih =>
    unfold runSingleClaims
    have hc := singleKey_count key cap e s key
    have he := singleKey_expiry key cap e s key
    have hpos' : 0 < (atomicClaimSingleKey key cap e s).2.count key := by
      rw [hc]; by_cases hlt : s.count key < cap <;> simp [hlt] <;> omega
    have hexp : (atomicClaimSingleKey key cap e s).2.expiry key = s.expiry key := by
      rw [he]
      have : ¬ s.count key = 0 := by omega
      simp [this]
    rw [ih _ hpos', hexp]

/-- Witness for C7 (amended): a second claim against a cell created with
expiry 5 (count already 1, cap 3) leaves the expiry at 5. -/
theorem claim7_expiry_witness :
    ("u:E" : String) ≠ "g:E" ∧
    (runSingleClaims "k:E" 3 [8]
        ((Store.empty.incr "k:E").expireAt "k:E" 5)).2.expiry "k:E"
      = ((Store.empty.incr "k:E").expireAt "k:E" 5).expiry "k:E" :=
  ⟨by decide,
   (claim7_expiry_set_once "k:E" "g:E" "u:E" 3 1 1 8
      ((Store.empty.incr "k:E").expireAt "k:E" 5) (by decide)).2.2 [8] (by decide)⟩

/-! ## Claim C8: hash-tag lemmas -/

theorem string_toList_append (a b : String) : (a ++ b).toList = a.toList ++ b.toList := by
  simp [String.toList, String.data_append]

theorem string_mk_toList (s : String) : String.mk s.toList = s := by
  cases s; rfl

theorem findTag_append_no_brace (l1 l2 : List Char) (h : ∀ c ∈ l1, c ≠ braceOpen) :
    findTag (l1 ++ l2) = findTag l2 := by
  induction l1 with
  | nil => rfl
  | cons c cs ih =>
    have hc : c ≠ braceOpen := h c (List.mem_cons_self _ _)
    simp only [List.cons_append, findTag, hc, if_neg, ite_false, reduceIte]
    exact ih (fun d hd => h d (List.mem_cons_of_mem _ hd))

theorem findTag_cons_brace (l : List Char) :
    findTag (braceOpen :: l) = extractTag l := by
  simp [findTag]

theorem takeWhile_append_all (p : Char → Bool) (l1 l2 : List Char)
    (h : ∀ c ∈ l1, p c = true) :
    (l1 ++ l2).takeWhile p = l1 ++ l2.takeWhile p := by
  induction l1 with
  | nil => rfl
  | cons c cs ih =>
    have hc : p c = true := h c (List.mem_cons_self _ _)
    simp only [List.cons_append, List.takeWhile_cons, hc, ite_true, reduceIte]
    rw [ih (fun d hd => h d (List.mem_cons_of_mem _ hd))]

theorem extractTag_closed (oidc rest : List Char)
    (h : ∀ c ∈ oidc, c ≠ braceClose) (hne : oidc ≠ []) :
    extractTag (oidc ++ braceClose :: rest) = some (String.mk oidc) := by
  unfold extractTag
  have ht : (oidc ++ braceClose :: rest).takeWhile (fun c => c ≠ braceClose) = oidc := by
    rw [takeWhile_append_all _ _ _ (by intro c hc; simpa using h c hc)]
    simp [List.takeWhile_cons]
  rw [ht]
  have hlen : oidc.length < (oidc ++ braceClose :: rest).length := by
    simp
  simp [hlen, hne]

/-- The tag of any key of the shape `prefixNoBrace ++ "{" ++ oid ++ "}" ++ suffix`
is `oid`, provided the prefix has no `{` and `oid` is nonempty without `}`. -/
theorem hashTag_of_wrapped (pre oid suf : String)
    (hpre : ∀ c ∈ pre.toList, c ≠ braceOpen)
    (hno : ∀ c ∈ oid.toList, c ≠ braceClose) (hne : oid.toList ≠ []) :
    hashTag (pre ++ String.mk [braceOpen] ++ oid ++ String.mk [braceClose] ++ suf)
      = some oid := by
  unfold hashTag
  rw [string_toList_append, string_toList_append, string_toList_append,
    string_toList_append]
  have h1 : (String.mk [braceOpen]).toList = [braceOpen] := rfl
  have h2 : (String.mk [braceClose]).toList = [braceClose] := rfl
  rw [h1, h2]
  rw [List.append_assoc, List.append_assoc, List.append_assoc]
  rw [findTag_append_no_brace _ _ hpre]
  simp only [List.singleton_append, List.cons_append]
  rw [findTag_cons_brace]
  have hext := extractTag_closed oid.toList (suf.toList) hno hne
  rw [string_mk_toList] at hext
  simpa using hext

/-- C8 counterexample.  The claim asserts that the key schemes of its
sources embed the same offer-id-derived colocation tag in both keys of a
BOTH offer.  The scheme of `_claim_offers_iterative_atomic`
(locust_iterative_atomic.py) does not: for offer `o1`, user `u1`, day
`20240101`, its user key carries the hash tag `u1` (the USER id) while
its global key carries no tag at all, so the two tags differ and neither
is derived from the offer id. -/
theorem claim8_counterexample :
    hashTag (userTaggedUserKey "u1" "o1" "20240101") = some "u1" ∧
    hashTag (plainGlobalKey "o1" "20240101") = none ∧
    hashTag (userTaggedUserKey "u1" "o1" "20240101")
      ≠ hashTag (plainGlobalKey "o1" "20240101") ∧
    hashTag (userTaggedUserKey "u1" "o1" "20240101") ≠ some "o1" :=
  ⟨by decide, by decide, by decide, by decide⟩

/-- C8 (amended): the key scheme of the dual-cell variants (v4.py,
batch_locust.py, opt_v2.py) does embed the same colocation tag — the
offer id — in both the global and the user cell key of a BOTH offer (for
offer ids that are nonempty and contain no closing brace), so the
two keys of one dual-cell claim map to the same shard.  The schemes of
locust_iterative_atomic.py, locust_v3.py, offerings_lua/locust.py and
locust_sharded.py instead tag the user key by the USER id and leave the
global key untagged; those variants never pass the two keys to one
multi-key atomic operation. -/
theorem claim8_colocation_tag_equality (oid uid date : String)
    (hno : ∀ c ∈ oid.toList, c ≠ braceClose) (hne : oid.toList ≠ []) :
    hashTag (v4GlobalKey oid date) = some oid ∧
    hashTag (v4UserKey oid uid date) = some oid ∧
    hashTag (v4GlobalKey oid date) = hashTag (v4UserKey oid uid date) := by
  have hg : v4GlobalKey oid date
      = "offer:" ++ String.mk [braceOpen] ++ oid ++ String.mk [braceClose]
        ++ (":count:" ++ date) := by
    unfold v4GlobalKey
    apply String.ext
    simp [String.data_append, braceOpen, braceClose]
  have hu : v4UserKey oid uid date
      = "user_offer:" ++ String.mk [braceOpen] ++ oid ++ String.mk [braceClose]
        ++ (":count:" ++ uid ++ ":" ++ date) := by
    unfold v4UserKey
    apply String.ext
    simp [String.data_append, braceOpen, braceClose]
  have t1 : hashTag (v4GlobalKey oid date) = some oid := by
    rw [hg]
    exact hashTag_of_wrapped "offer:" oid (":count:" ++ date) (by decide) hno hne
  have t2 : hashTag (v4UserKey oid uid date) = some oid := by
    rw [hu]
    exact hashTag_of_wrapped "user_offer:" oid (":count:" ++ uid ++ ":" ++ date)
      (by decide) hno hne
  exact ⟨t1, t2, by rw [t1, t2]⟩

/-- Witness for C8 (amended): for offer `o1`, user `u1`, day `20240101`
the v4 scheme's two keys both carry tag `o1`. -/
theorem claim8_colocation_witness :
    (∀ c ∈ ("o1" : String).toList, c ≠ braceClose) ∧
    hashTag (v4GlobalKey "o1" "20240101") = some "o1" ∧
    hashTag (v4GlobalKey "o1" "20240101") = hashTag (v4UserKey "o1" "u1" "20240101") :=
  ⟨by decide,
   (claim8_colocation_tag_equality "o1" "u1" "20240101" (by decide) (by decide)).1,
   (claim8_colocation_tag_equality "o1" "u1" "20240101" (by decide) (by decide)).2.2⟩

/-! ## Claim C2 -/

theorem v4ClaimOne_ops_script (catalog : Catalog) (uid date : String) (ex : Int)
    (oid : String) (s : Store) :
    ((v4ClaimOne catalog uid date ex oid s).2.2.all Op.isScript) = true := by
  unfold v4ClaimOne
  cases catalog oid with
  | none => rfl
  | some cfg =>
    by_cases ht : cfg.type = OfferType.BOTH <;> simp [ht, Op.isScript]

theorem batchClaimOne_ops_script (catalog : Catalog) (uid date : String) (ex : Int)
    (oid : String) (s : Store) :
    ((batchClaimOne catalog uid date ex oid s).2.2.all Op.isScript) = true := by
  unfold batchClaimOne
  cases catalog oid with
  | none => rfl
  | some cfg =>
    by_cases ht : cfg.type = OfferType.BOTH <;> simp [ht, Op.isScript]

theorem v4ClaimLoopAux_ops_script (catalog : Catalog) (uid date : String) (ex : Int)
    (gl : Nat) (offers : List String) :
    ∀ acc s tr, (tr.all Op.isScript) = true →
    ((v4ClaimLoopAux catalog uid date ex gl offers acc s tr).2.2.all Op.isScript) = true := by
  induction offers with
  | nil => intro acc s tr h; simpa [v4ClaimLoopAux] using h
  | cons oid rest ih =>
    intro acc s tr h
    unfold v4ClaimLoopAux
    by_cases hbrk : gl ≤ acc.length
    · simpa [hbrk] using h
    · simp only [hbrk, ite_false, reduceIte]
      apply ih
      rw [List.all_append]
      simp [h, v4ClaimOne_ops_script]

theorem batchClaimAux_ops_script (catalog : Catalog) (uid date : String) (ex : Int)
    (offers : List String) :
    ∀ acc s tr, (tr.all Op.isScript) = true →
    ((batchClaimAux catalog uid date ex offers acc s tr).2.2.all Op.isScript) = true := by
  induction offers with
  | nil => intro acc s tr h; simpa [batchClaimAux] using h
  | cons oid rest ih =>
    intro acc s tr h
    unfold batchClaimAux
    apply ih
    rw [List.all_append]
    simp [h, batchClaimOne_ops_script]

/-- C2 counterexample.  The claim asserts that no code path issues a bare
INCR or DECR to a cap-governing cell outside a Lua script.  Its own
sources include `claim_offers_flexible` (offerings_lua/locust.py) whose
pipeline 2 issues a bare `INCR` on the global cell: concretely, one run
against BOTH offer `X` emits the client op `bareIncr "offer:X:20240101"`
(the cap-governed global cell for `X`), outside any script.  (The
source's other cited paths are the same pattern: `locust_v3.py` line 134
issues `self.client.incr(global_key)` and `opt_v1.py` line 105 issues
`self.client.decr(user_key)`.) -/
theorem claim2_counterexample :
    Op.bareIncr (plainGlobalKey "X" "20240101")
      ∈ (claim_offers_flexible catalogX11 "u1" "20240101" 100 ["X"] Store.empty).2.2 ∧
    Op.isBareMutation (Op.bareIncr (plainGlobalKey "X" "20240101")) = true :=
  ⟨by decide, by decide⟩

/-- C2 (amended): the atomic-mutation discipline holds for the
script-based claim loops — every store operation issued by v4.py's
`_claim_offers_optimal_cluster` and batch_locust.py's
`_claim_offers_in_batch` is an atomic Lua script execution, so every
counter mutation they cause happens inside a script.  It does not hold
for `claim_offers_flexible` (bare global INCR, the counterexample), for
locust_v3.py's BOTH path (bare global INCR), for opt_v1.py's dual-claim
compensation (bare user DECR), or for the fully client-side one-by-one
loops. -/
theorem claim2_atomic_mutation_discipline (catalog : Catalog) (uid date : String)
    (ex : Int) (offers : List String) (gl : Nat) (s : Store) :
    ((claim_offers_optimal_cluster catalog uid date ex offers gl s).2.2.all
      Op.isScript) = true ∧
    ((claim_offers_in_batch catalog uid date ex offers s).2.2.all Op.isScript) = true :=
  ⟨v4ClaimLoopAux_ops_script catalog uid date ex gl offers [] s [] rfl,
   batchClaimAux_ops_script catalog uid date ex offers [] s [] rfl⟩

/-! ## Claim C9 -/

theorem insertUnique_nodup (l : List String) (x : String) (h : l.Nodup) :
    (insertUnique l x).Nodup := by
  unfold insertUnique
  by_cases hx : x ∈ l
  · simpa [hx]
  · simp only [hx, ite_false, reduceIte]
    rw [List.nodup_append]
    refine ⟨h, List.nodup_singleton x, ?_⟩
    intro a ha hax
    simp only [List.mem_singleton] at hax
    exact hx (hax ▸ ha)

theorem unionUnique_nodup (new : List String) :
    ∀ l, l.Nodup → (unionUnique l new).Nodup := by
  induction new with
  | nil => intro l h; simpa [unionUnique]
  | cons x rest ih =>
    intro l h
    unfold unionUnique at *
    simp only [List.foldl_cons]
    exact ih _ (insertUnique_nodup l x h)

theorem secureLoop_nodup (catalog : Catalog) (uid date : String) (ex : Int)
    (poolD : List String) (nReq : Nat) (hpool : poolD.Nodup) :
    ∀ fuel claimed attempted s, claimed.Nodup → attempted.Nodup →
    (secureLoop catalog uid date ex poolD nReq fuel claimed attempted s).1.Nodup ∧
    (secureLoop catalog uid date ex poolD nReq fuel claimed attempted s).2.1.Nodup := by
  intro fuel
  induction fuel with
  | zero => intro claimed attempted s hc ha; simpa [secureLoop] using ⟨hc, ha⟩
  | succ n ih =>
    intro claimed attempted s hc ha
    unfold secureLoop
    dsimp only
    by_cases hdone : nReq ≤ claimed.length
    · rw [if_pos hdone]; exact ⟨hc, ha⟩
    · rw [if_neg hdone]
      by_cases hav : poolD.filter (fun oid => decide (oid ∉ attempted)) = []
      · rw [if_pos hav]; exact ⟨hc, ha⟩
      · rw [if_neg hav]
        apply ih
        · exact unionUnique_nodup _ _ hc
        · rw [List.nodup_append]
          have hfil : (poolD.filter (fun oid => decide (oid ∉ attempted))).Nodup :=
            List.Nodup.filter _ hpool
          have hbatch : ((poolD.filter (fun oid => decide (oid ∉ attempted))).take
              (nReq - claimed.length)).Nodup :=
            List.Nodup.sublist (List.take_sublist _ _) hfil
          refine ⟨ha, hbatch, ?_⟩
          intro a hamem habatch
          have hav2 : a ∈ poolD.filter (fun oid => decide (oid ∉ attempted)) :=
            List.mem_of_mem_take habatch
          have := (List.mem_filter.mp hav2).2
          simp only [decide_eq_true_eq] at this
          exact this hamem

/-- C9 counterexample.  The claim asserts that a duplicate offer id in
the candidate list results in only one claim call and at most one
occurrence in the returned grant set.  `_claim_offers_optimal_cluster`
(v4.py), a cited source, iterates the raw candidate list with no
attempted-set: for BOTH offer `X` with caps 2/2, candidates `[X, X]` and
grant limit 2, it issues TWO dual-cell script calls for `X` and returns
`X` twice. -/
theorem claim9_counterexample :
    (claim_offers_optimal_cluster catalogX22 "u1" "20240101" 100 ["X", "X"] 2
      Store.empty).1 = ["X", "X"] ∧
    (claim_offers_optimal_cluster catalogX22 "u1" "20240101" 100 ["X", "X"] 2
      Store.empty).2.2
      = [Op.scriptCall [v4GlobalKey "X" "20240101", v4UserKey "X" "u1" "20240101"],
         Op.scriptCall [v4GlobalKey "X" "20240101", v4UserKey "X" "u1" "20240101"]] ∧
    ¬ ((claim_offers_optimal_cluster catalogX22 "u1" "20240101" 100 ["X", "X"] 2
      Store.empty).1.count "X" ≤ 1) :=
  ⟨by decide, by decide, by decide⟩

/-- C9 (amended): the attempted-set orchestrators do satisfy idempotent
non-retry.  In `_secure_n_offers` (batch_locust.py) the candidate pool is
deduplicated into a set and every batch is drawn from the not-yet-attempted
remainder, so the sequence of offer ids handed to the claim layer over the
whole run contains no id twice, and the returned grant set contains no
duplicates.  The streaming loops without an attempted set (v4.py,
opt_v2.py, locust_sharded.py) re-attempt a duplicated candidate id, as
the counterexample shows. -/
theorem claim9_idempotent_non_retry (catalog : Catalog) (uid date : String) (ex : Int)
    (pool : List String) (nReq : Nat) (s : Store) :
    (secure_n_offers catalog uid date ex pool nReq s).2.1.Nodup ∧
    (secure_n_offers catalog uid date ex pool nReq s).1.Nodup := by
  have h := secureLoop_nodup catalog uid date ex pool.dedup nReq
    (List.nodup_dedup pool) (nReq + 5) [] [] s List.nodup_nil List.nodup_nil
  exact ⟨h.2, h.1⟩

/-! ## Claim C10 -/

theorem v4ClaimOne_non_both (catalog : Catalog) (uid date : String) (ex : Int)
    (oid : String) (cfg : OfferConfig) (s : Store)
    (hcfg : catalog oid = some cfg) (hnb : cfg.type ≠ OfferType.BOTH) :
    v4ClaimOne catalog uid date ex oid s = (false, s, []) := by
  unfold v4ClaimOne
  rw [hcfg]
  simp [hnb]

theorem batchClaimOne_non_both (catalog : Catalog) (uid date : String) (ex : Int)
    (oid : String) (cfg : OfferConfig) (s : Store)
    (hcfg : catalog oid = some cfg) (hnb : cfg.type ≠ OfferType.BOTH) :
    batchClaimOne catalog uid date ex oid s = (false, s, []) := by
  unfold batchClaimOne
  rw [hcfg]
  simp [hnb]

theorem v4ClaimLoopAux_not_mem (catalog : Catalog) (uid date : String) (ex : Int)
    (gl : Nat) (oid : String)
    (hbody : ∀ s, (v4ClaimOne catalog uid date ex oid s).1 = false) :
    ∀ offers acc s tr, oid ∉ acc →
    oid ∉ (v4ClaimLoopAux catalog uid date ex gl offers acc s tr).1 := by
  intro offers
  induction offers with
  | nil => intro acc s tr h; simpa [v4ClaimLoopAux] using h
  | cons o rest ih =>
    intro acc s tr h
    unfold v4ClaimLoopAux
    by_cases hbrk : gl ≤ acc.length
    · simpa [hbrk] using h
    · simp only [hbrk, ite_false, reduceIte]
      apply ih
      by_cases ho : (v4ClaimOne catalog uid date ex o s).1 = true
      · simp only [ho, ite_true, reduceIte]
        intro hmem
        rcases List.mem_append.mp hmem with hmem | hmem
        · exact h hmem
        · have : oid = o := List.mem_singleton.mp hmem
          subst this
          rw [hbody s] at ho
          exact Bool.false_ne_true ho
      · simp only [Bool.not_eq_true] at ho
        simpa [ho] using h

theorem batchClaimAux_not_mem (catalog : Catalog) (uid date : String) (ex : Int)
    (oid : String)
    (hbody : ∀ s, (batchClaimOne catalog uid date ex oid s).1 = false) :
    ∀ offers acc s tr, oid ∉ acc →
    oid ∉ (batchClaimAux catalog uid date ex offers acc s tr).1 := by
  intro offers
  induction offers with
  | nil => intro acc s tr h; simpa [batchClaimAux] using h
  | cons o rest ih =>
    intro acc s tr h
    unfold batchClaimAux
    apply ih
    by_cases ho : (batchClaimOne catalog uid date ex o s).1 = true
    · simp only [ho, ite_true, reduceIte]
      intro hmem
      rcases List.mem_append.mp hmem with hmem | hmem
      · exact h hmem
      · have : oid = o := List.mem_singleton.mp hmem
        subst this
        rw [hbody s] at ho
        exact Bool.false_ne_true ho
    · simp only [Bool.not_eq_true] at ho
      simpa [ho] using h

theorem flexPipeline1_not_mem (catalog : Catalog) (uid date : String) (ex : Int)
    (oid : String) (cfg : OfferConfig)
    (hcfg : catalog oid = some cfg) (hnb : cfg.type ≠ OfferType.BOTH) :
    ∀ offers s, oid ∉ ((flexPipeline1 catalog uid date ex offers s).1.map Prod.fst) := by
  intro offers
  induction offers with
  | nil => intro s; simp [flexPipeline1]
  | cons o rest ih =>
    intro s
    unfold flexPipeline1
    cases hco : catalog o with
    | none => exact ih s
    | some cfgo =>
      by_cases ht : cfgo.type = OfferType.BOTH
      · simp only [ht, ite_true, reduceIte, List.map_cons, List.mem_cons]
        intro hmem
        rcases hmem with hmem | hmem
        · subst hmem
          rw [hcfg] at hco
          have : cfg = cfgo := by injection hco
          exact hnb (this ▸ ht)
        · exact ih _ hmem
      · simp only [ht, ite_false, reduceIte]
        exact ih s

theorem flex_result_subset_pipeline1 (catalog : Catalog) (uid date : String) (ex : Int)
    (offers : List String) (s : Store) (oid : String)
    (h : oid ∈ (claim_offers_flexible catalog uid date ex offers s).1) :
    oid ∈ ((flexPipeline1 catalog uid date ex offers s).1.map Prod.fst) := by
  unfold claim_offers_flexible at h
  simp only [List.mem_map, List.mem_filter] at h ⊢
  obtain ⟨p, ⟨hp, _⟩, hfst⟩ := h
  exact ⟨p, hp, hfst⟩

/-- C10: for a candidate offer whose catalog type is not BOTH
(GLOBAL_ONLY or USER_ONLY alike), the claim loops of v4.py,
batch_locust.py and offerings_lua/locust.py issue no store operation for
that offer (the per-offer body returns the store untouched with an empty
op list, and the flexible pipeline never enqueues it) and never include it
in the returned grant set: those offer kinds are disabled (their dispatch
branches are commented out in all three sources), not merely
deprioritized. -/
theorem claim10_non_both_disabled (catalog : Catalog) (uid date : String) (ex : Int)
    (oid : String) (cfg : OfferConfig) (offers : List String) (gl : Nat) (s : Store)
    (hcfg : catalog oid = some cfg) (hnb : cfg.type ≠ OfferType.BOTH) :
    v4ClaimOne catalog uid date ex oid s = (false, s, []) ∧
    batchClaimOne catalog uid date ex oid s = (false, s, []) ∧
    oid ∉ ((flexPipeline1 catalog uid date ex offers s).1.map Prod.fst) ∧
    oid ∉ (claim_offers_optimal_cluster catalog uid date ex offers gl s).1 ∧
    oid ∉ (claim_offers_in_batch catalog uid date ex offers s).1 ∧
    oid ∉ (claim_offers_flexible catalog uid date ex offers s).1 := by
  refine ⟨v4ClaimOne_non_both catalog uid date ex oid cfg s hcfg hnb,
    batchClaimOne_non_both catalog uid date ex oid cfg s hcfg hnb,
    flexPipeline1_not_mem catalog uid date ex oid cfg hcfg hnb offers s, ?_, ?_, ?_⟩
  · exact v4ClaimLoopAux_not_mem catalog uid date ex gl oid
      (fun s2 => by rw [v4ClaimOne_non_both catalog uid date ex oid cfg s2 hcfg hnb])
      offers [] s [] (List.not_mem_nil oid)
  · exact batchClaimAux_not_mem catalog uid date ex oid
      (fun s2 => by rw [batchClaimOne_non_both catalog uid date ex oid cfg s2 hcfg hnb])
      offers [] s [] (List.not_mem_nil oid)
  · intro hmem
    exact flexPipeline1_not_mem catalog uid date ex oid cfg hcfg hnb offers s
      (flex_result_subset_pipeline1 catalog uid date ex offers s oid hmem)

/-- Witness for C10: USER_ONLY offer `Y` of `catalogYB` is never granted
by the v4 loop over candidates `[Y, B]`. -/
theorem claim10_non_both_witness :
    catalogYB "Y" = some ⟨OfferType.USER_ONLY, 0, some 1⟩ ∧
    "Y" ∉ (claim_offers_optimal_cluster catalogYB "u1" "20240101" 9 ["Y", "B"] 5
      Store.empty).1 :=
  ⟨by decide,
   (claim10_non_both_disabled catalogYB "u1" "20240101" 9 "Y"
      ⟨OfferType.USER_ONLY, 0, some 1⟩ ["Y", "B"] 5 Store.empty (by decide)
      (by decide)).2.2.2.1⟩

end POC
